import Mathlib

/-!
Shallow embedding of the topology transmogrifier of a distributed object
store (Go sources: `network/topologytransmogrifier.go` and companions),
together with proofs about its dispatch logic, migration-condition
computation, immigration accounting, discovery transaction handling,
observed-topology acceptance, client-transaction backoff, the variable
manager's activity invariant, and the emigrator's store scan.

Machine integers from the source are modelled as `Nat` where no overflow
can occur (versions and lengths are only compared, `uint16 twoFInc` is at
most `2*255+1`), and as `Int` with an explicit wrap at `2^31` where the
source uses `int32` counters.
-/

/-- `common.RMId` (a `uint32` node identifier; only compared for identity). -/
abbrev RMId := Nat

/-- `common.RMIdEmpty`: the distinguished empty slot in an RM list. -/
def RMIdEmpty : RMId := 0

/-- `configuration.Generator`: a placement-condition leaf
`(rmId, permLen, start, len | lenAdjustIntersect, includes)`. -/
structure Generator where
  rmId : RMId
  permLen : Nat
  start : Nat
  len : Nat
  lenAdjustIntersect : List RMId
  includes : Bool
deriving DecidableEq, Repr

/-- `configuration.Cond`: the predicate tree over placements; leaves are
generators, internal nodes are conjunction and disjunction. -/
inductive Cond where
  | gen (g : Generator)
  | conj (left right : Cond)
  | disj (left right : Cond)
deriving DecidableEq, Repr

/-- `configuration.CondSuppliers`: a pending placement condition together
with the RMs that have already supplied data towards it. -/
structure CondSuppliers where
  cond : Cond
  suppliers : List RMId
deriving DecidableEq, Repr

/-- `configuration.Conds` (`map[common.RMId]*CondSuppliers`), modelled as an
association list in insertion order. -/
abbrev Conds := List (RMId × CondSuppliers)

/-- The scalar fields shared by `configuration.Configuration` and the
configuration embedded in a `NextConfiguration`. -/
structure ConfigCore where
  clusterId : String
  version : Nat
  hosts : List String
  f : Nat
  maxRMCount : Nat
  rms : List RMId
  rmsRemoved : List RMId
deriving DecidableEq, Repr

/-- `configuration.NextConfiguration`: the in-progress target carried inside
an active configuration. -/
structure NextConfig where
  core : ConfigCore
  allHosts : List String
  newRMIds : List RMId
  survivingRMIds : List RMId
  lostRMIds : List RMId
  pendingInstall : List RMId
  pending : Conds
deriving DecidableEq, Repr

/-- `configuration.Configuration`: a configuration with its optional `next`. -/
structure Configuration where
  core : ConfigCore
  next : Option NextConfig
deriving DecidableEq, Repr

/-- `configuration.Topology`: a configuration as stored in the topology
variable, with the transaction id that last wrote it (`DBVersion`) and the
optional root variable pointer. -/
structure Topology where
  config : Configuration
  dbVersion : Nat
  root : Option Nat
deriving DecidableEq, Repr

def Configuration.version (c : Configuration) : Nat := c.core.version

def Configuration.clusterId (c : Configuration) : String := c.core.clusterId

/-- `Configuration.RMs().NonEmptyLen()`: the number of non-empty RM slots. -/
def Configuration.nonEmptyLen (c : Configuration) : Nat :=
  (c.core.rms.filter (fun r => r ≠ RMIdEmpty)).length

def Topology.version (t : Topology) : Nat := t.config.core.version

def Topology.clusterId (t : Topology) : String := t.config.core.clusterId

def Topology.next (t : Topology) : Option NextConfig := t.config.next

def Topology.rmsRemoved (t : Topology) : List RMId := t.config.core.rmsRemoved

/-- Association-list lookup on `Conds` (Go map indexing). -/
def Conds.find (cs : Conds) (rm : RMId) : Option CondSuppliers :=
  match cs with
  | [] => none
  | (r, s) :: rest => if r = rm then some s else Conds.find rest rm

/-- Modelled from the spec: `configuration.Conds.DisjoinWith` is not among
the source files (only its callers are); the spec says "All clauses for the
same RM are OR-combined". A clause for an RM that already has an entry
replaces that entry's condition by the disjunction (existing OR new),
keeping its suppliers; otherwise a fresh entry with no suppliers is added. -/
def Conds.disjoinWith (cs : Conds) (rm : RMId) (c : Cond) : Conds :=
  match cs with
  | [] => [(rm, ⟨c, []⟩)]
  | (r, s) :: rest =>
    if r = rm then (r, ⟨.disj s.cond c, s.suppliers⟩) :: rest
    else (r, s) :: Conds.disjoinWith rest rm c

/-- Folding `disjoinWith` over a list of (rm, clause) pairs; each of the
three loops of `calculateMigrationConditions` is an instance of this. -/
def Conds.disjoinAll (cs : Conds) (ps : List (RMId × Cond)) : Conds :=
  ps.foldl (fun acc p => acc.disjoinWith p.1 p.2) cs

/-- `calculateMigrationConditions(added, lost, survived, from, to)`: computes
`next.Pending`. `twoFInc` values are `uint16((F)*2)+1` in the source and
cannot overflow (`F` is a `uint8`), so plain `Nat` arithmetic is exact. -/
def calculateMigrationConditions (added lost survived : List RMId)
    (cfrom cto : Configuration) : Conds :=
  let twoFIncNew := 2 * cto.core.f + 1
  let twoFIncOld := 2 * cfrom.core.f + 1
  let conditions : Conds := []
  let conditions := added.foldl (fun cs rmIdNew =>
    cs.disjoinWith rmIdNew
      (.gen ⟨rmIdNew, cto.nonEmptyLen, 0, twoFIncNew, [], true⟩)) conditions
  let conditions :=
    if 0 < lost.length ∧ twoFIncOld < cfrom.nonEmptyLen ∧ 1 < survived.length
    then
      survived.foldl (fun cs rm =>
        cs.disjoinWith rm
          (.gen ⟨rm, cfrom.nonEmptyLen, twoFIncOld, 0, lost, true⟩)) conditions
    else conditions
  if cfrom.core.f < cto.core.f then
    survived.foldl (fun cs rm =>
      cs.disjoinWith rm
        (.conj (.gen ⟨rm, cto.nonEmptyLen, 0, twoFIncNew, [], true⟩)
          (.gen ⟨rm, cfrom.nonEmptyLen, 0, twoFIncOld, [], false⟩))) conditions
  else conditions

/-- Spec's rule 1: the clause each added RM receives. -/
def addedClauseGen (cto : Configuration) (rm : RMId) : Cond :=
  .gen ⟨rm, cto.nonEmptyLen, 0, 2 * cto.core.f + 1, [], true⟩

/-- Spec's rule 2: the clause each survivor receives when RMs were lost. -/
def survivorIntersectGen (cfrom : Configuration) (lost : List RMId)
    (rm : RMId) : Cond :=
  .gen ⟨rm, cfrom.nonEmptyLen, 2 * cfrom.core.f + 1, 0, lost, true⟩

/-- Spec's rule 3: the clause each survivor receives when `F` grows. -/
def survivorQuorumGrowthClause (cfrom cto : Configuration) (rm : RMId) : Cond :=
  .conj (.gen ⟨rm, cto.nonEmptyLen, 0, 2 * cto.core.f + 1, [], true⟩)
    (.gen ⟨rm, cfrom.nonEmptyLen, 0, 2 * cfrom.core.f + 1, [], false⟩)

/-- The list of clauses the spec's three rules assign to a given RM, in rule
order, one clause per occurrence of the RM in the relevant input list. -/
def specMigrationClauses (added lost survived : List RMId)
    (cfrom cto : Configuration) (rm : RMId) : List Cond :=
  ((added.filter (fun r => r = rm)).map (addedClauseGen cto)) ++
  ((if 0 < lost.length ∧ 2 * cfrom.core.f + 1 < cfrom.nonEmptyLen ∧
        1 < survived.length
    then (survived.filter (fun r => r = rm)).map (survivorIntersectGen cfrom lost)
    else []) ++
   (if cfrom.core.f < cto.core.f
    then (survived.filter (fun r => r = rm)).map
      (survivorQuorumGrowthClause cfrom cto)
    else []))

/-- OR-combination of a clause list, left-associated, as an optional Cond. -/
def specCombineClauses : List Cond → Option Cond
  | [] => none
  | c :: rest => some (rest.foldl Cond.disj c)

/-- Association-list lookup with `Nat` keys (Go map indexing). -/
def alistFind {β : Type} (l : List (Nat × β)) (k : Nat) : Option β :=
  match l with
  | [] => none
  | (k', v') :: rest => if k' = k then some v' else alistFind rest k

/-- Association-list update-or-insert with `Nat` keys (Go map assignment). -/
def alistSet {β : Type} (l : List (Nat × β)) (k : Nat) (v : β) : List (Nat × β) :=
  match l with
  | [] => [(k, v)]
  | (k', v') :: rest =>
    if k' = k then (k, v) :: rest else (k', v') :: alistSet rest k v

/-- Wrap of an `Int` into the range of a Go `int32`; `atomic.AddInt32`
arithmetic wraps at `2^31`. -/
def i32 (n : Int) : Int := (n + 2 ^ 31) % 2 ^ 32 - 2 ^ 31

/-- The per-version sender counters (`map[common.RMId]*int32`). -/
abbrev SenderCounters := List (Nat × Int)

/-- `TopologyTransmogrifier.migrations` (`map[uint32]map[common.RMId]*int32`). -/
abbrev Migrations := List (Nat × SenderCounters)

/-- `TopologyTransmogrifier.migrationReceived`: on a migration batch for
`version` from `sender`, when `version > active.Version`, bump the sender's
counter by one, initialising it to 2 on first receipt; otherwise ignore. -/
def migrationReceived (activeVersion : Nat) (m : Migrations) (version : Nat)
    (sender : RMId) : Migrations :=
  if activeVersion < version then
    let senders := (alistFind m version).getD []
    let senders' :=
      match alistFind senders sender with
      | some c => alistSet senders sender (i32 (c + 1))
      | none => alistSet senders sender 2
    alistSet m version senders'
  else m

/-- The completion callback passed to `VarDispatcher.Immigrate` in
`migrationReceived`: once the batch's last variable completion fires
(`varCount` reaches zero), the sender's counter is decremented through the
captured pointer, which is always the live map cell for `(version, sender)`
since cells are installed at batch receipt and never replaced. -/
def migrationBatchComplete (m : Migrations) (version : Nat) (sender : RMId) :
    Migrations :=
  match alistFind m version with
  | none => m
  | some senders =>
    match alistFind senders sender with
    | none => m
    | some c => alistSet m version (alistSet senders sender (i32 (c - 1)))

/-- `TopologyTransmogrifier.migrationCompleteReceived`: on the terminal
migration-complete from `sender` for `version`, decrement the sender's
counter; a terminal for an unknown version is ignored unless
`version > active.Version`, and a terminal for an unknown sender installs a
zero counter. -/
def migrationCompleteReceived (activeVersion : Nat) (m : Migrations)
    (version : Nat) (sender : RMId) : Migrations :=
  match alistFind m version with
  | none =>
    if activeVersion < version then
      alistSet m version (alistSet ([] : SenderCounters) sender 0)
    else m
  | some senders =>
    match alistFind senders sender with
    | some c => alistSet m version (alistSet senders sender (i32 (c - 1)))
    | none => alistSet m version (alistSet senders sender 0)

/-- The three kinds of arrival the immigration accounting reacts to. -/
inductive MigEvent where
  | batch (version : Nat) (sender : RMId)
  | batchDone (version : Nat) (sender : RMId)
  | complete (version : Nat) (sender : RMId)
deriving DecidableEq, Repr

/-- One arrival applied to the ledger. -/
def migStep (activeVersion : Nat) (m : Migrations) : MigEvent → Migrations
  | .batch v s => migrationReceived activeVersion m v s
  | .batchDone v s => migrationBatchComplete m v s
  | .complete v s => migrationCompleteReceived activeVersion m v s

/-- The ledger after a sequence of arrivals, starting from the empty map. -/
def migRun (activeVersion : Nat) (events : List MigEvent) : Migrations :=
  events.foldl (migStep activeVersion) []

/-- Number of occurrences of an arrival in a trace. -/
def countEv (es : List MigEvent) (e : MigEvent) : Nat :=
  (es.filter (fun x => x = e)).length

/-- The counter for `(version, sender)` held by the ledger. -/
def migLedger (m : Migrations) (version : Nat) (sender : RMId) : Option Int :=
  match alistFind m version with
  | none => none
  | some senders => alistFind senders sender

/-- Whether an `Except` value is an error. -/
def exceptHasError {ε α : Type} : Except ε α → Bool
  | .error _ => true
  | .ok _ => false

/-- The sub-tasks the state machine's `targetConfig.tick()` can install. -/
inductive SubTask where
  | ensureLocalTopology
  | joinCluster
  | installTargetOld
  | installTargetNew
  | migrate
  | installCompletion
deriving DecidableEq, Repr

/-- `targetConfig.tick()`: dispatch on `(active, config)`; `.ok s` means the
sub-task `s` is installed as `task.task`, `.error` is the "Confused" case. -/
def targetConfigTick (active : Option Topology) (configVersion : Nat) :
    Except String SubTask :=
  match active with
  | none => .ok .ensureLocalTopology
  | some t =>
    if t.version = 0 then .ok .joinCluster
    else
      match t.next with
      | none => .ok .installTargetOld
      | some nx =>
        if nx.core.version < configVersion then .ok .installTargetOld
        else if nx.core.version = configVersion ∧ nx.pendingInstall ≠ [] then
          .ok .installTargetNew
        else if nx.core.version = configVersion ∧ nx.pendingInstall = [] ∧
            nx.pending ≠ [] then
          .ok .migrate
        else if nx.core.version = configVersion ∧ nx.pendingInstall = [] ∧
            nx.pending = [] then
          .ok .installCompletion
        else .error "Confused about what to do"

/-- The outcome of `TopologyTransmogrifier.setActive` up to the point where
the observed topology is accepted (`tt.active = topology`); everything after
acceptance (installing, task ticks) happens only in the `accepted` case.
`Configuration.Equal` is compared as structural equality of the embedded
configuration value. -/
inductive SetActiveResult where
  | fatalClusterId
  | ignoredOlderVersion
  | ignoredEqualConfig
  | removedError
  | accepted (newActive : Topology)
deriving DecidableEq, Repr

/-- `TopologyTransmogrifier.setActive` (the later, `part_002` version): the
guard switch over the currently active topology, then the `RMsRemoved`
self-check, then acceptance. -/
def setActive (active : Option Topology) (localRMId : RMId)
    (observed : Topology) : SetActiveResult :=
  match active with
  | some act =>
    if act.clusterId ≠ observed.clusterId then .fatalClusterId
    else if observed.version < act.version then .ignoredOlderVersion
    else if act.config = observed.config then .ignoredEqualConfig
    else if localRMId ∈ observed.rmsRemoved then .removedError
    else .accepted observed
  | none =>
    if localRMId ∈ observed.rmsRemoved then .removedError
    else .accepted observed

/-- `configuration.TopologyVarUUId`, the distinguished well-known UUID of
the topology variable (the all-zero UUID), modelled as the key `0`. -/
def topologyVarUUId : Nat := 0

/-- Modelled from the spec: `configuration.TopologyFromCap` is not among the
source files; it deserializes committed topology bytes, taking the writing
transaction's id as the topology's new `DBVersion` and the first reference
(when exactly one is present) as the root pointer. The byte payload is
embedded structurally as a `Configuration`. -/
def topologyFromCap (txnId : Nat) (rootPtr : Option Nat)
    (value : Configuration) : Topology :=
  ⟨value, txnId, rootPtr⟩

/-- The shape of one action inside an abort-rerun update: a write carrying
the topology payload and references, or any other (non-write) action. -/
inductive UpdateActionKind where
  | write (value : Configuration) (refs : List Nat)
  | nonWrite
deriving DecidableEq, Repr

/-- One action of an update, as inspected by the topology readers. -/
structure UpdateAction where
  varId : Nat
  kind : UpdateActionKind
deriving DecidableEq, Repr

/-- One update of an abort-rerun payload (`update.TxnId()` and actions). -/
structure TxnUpdate where
  txnId : Nat
  actions : List UpdateAction
deriving DecidableEq, Repr

/-- The outcome of one `RunTransaction` call as the topology readers see it. -/
inductive TxnOutcome where
  | commit
  | abortResubmit
  | abortRerun (updates : List TxnUpdate)
deriving DecidableEq, Repr

/-- The result of `targetConfig.getTopologyFromLocalDatabase`. -/
inductive TopoReadResult where
  | emptyStore
  | topo (t : Topology)
  | errored (msg : String)
  | retrying
deriving DecidableEq, Repr

/-- Whether a topology read ended in an internal error. -/
def TopoReadResult.isErrored : TopoReadResult → Bool
  | .errored _ => true
  | _ => false

/-- The retry loop body of `getTopologyFromLocalDatabase`, processing the
successive transaction outcomes; an exhausted list means the loop is still
resubmitting. -/
def processTopologyReadResults : List TxnOutcome → TopoReadResult
  | [] => .retrying
  | .commit :: _ =>
    .errored "Internal error: read of topology version 0 failed to abort"
  | .abortResubmit :: rest => processTopologyReadResults rest
  | .abortRerun updates :: _ =>
    match updates with
    | [u] =>
      match u.actions with
      | [a] =>
        if a.varId ≠ topologyVarUUId then
          .errored "Internal error: unable to find action for topology"
        else
          match a.kind with
          | .write value refs =>
            .topo (topologyFromCap u.txnId
              (if refs.length = 1 then refs.head? else none) value)
          | .nonWrite =>
            .errored "Internal error: read of topology version 0 gave non-write action"
      | _ => .errored "Internal error: read of topology version 0 gave multiple actions"
    | _ => .errored "Internal error: read of topology version 0 gave multiple updates"

/-- `getTopologyFromLocalDatabase`: the `IsDatabaseEmpty` early return,
then the retry loop. -/
def getTopologyFromLocalDatabase (dbEmpty : Bool)
    (results : List TxnOutcome) : TopoReadResult :=
  if dbEmpty then .emptyStore else processTopologyReadResults results

/-- One action of a topology transaction as built by
`createTopologyTransaction`. -/
inductive TxnActionCap where
  | readAct (version : Nat)
  | createAct (value : Configuration)
  | readwriteAct (version : Nat) (value : Configuration)
deriving DecidableEq, Repr

/-- The parts of a topology transaction the claims inspect. -/
structure TopoTxn where
  actions : List (Nat × TxnActionCap)
  activeAllocs : List RMId
  passiveAllocs : List RMId
  fInc : Nat
  topologyVersion : Nat
deriving DecidableEq, Repr

/-- `targetConfig.createTopologyTransaction(read, write, active, passive)`;
`none` is returned for the unsupported nil-write non-nil-read combination
(a panic in the source). `common.VersionZero` is the all-zero transaction
id, modelled as `0`. -/
def createTopologyTransaction (readT writeT : Option Topology)
    (active passive : List RMId) : Option TopoTxn :=
  match readT, writeT with
  | some _, none => none
  | none, none =>
    some ⟨[(topologyVarUUId, .readAct 0)], active, passive, active.length, 0⟩
  | none, some w =>
    some ⟨[(topologyVarUUId, .createAct w.config)], active, passive,
      active.length, 0⟩
  | some r, some w =>
    some ⟨[(topologyVarUUId, .readwriteAct r.dbVersion w.config)], active,
      passive, active.length,
      match r.next with
      | some nx => nx.core.version
      | none => r.version⟩

/-- Modelled from the spec: `configuration.Conds.SuppliedBy` is not among
the source files; the spec says pending entries are marked
supplied-by-a-sender "up to maxSuppliers". The requester's entry records a
supplier it had not seen while the cap is unreached, reporting whether the
entry changed. -/
def Conds.suppliedBy (cs : Conds) (requester supplier : RMId)
    (maxSuppliers : Int) : Conds × Bool :=
  match cs.find requester with
  | none => (cs, false)
  | some csup =>
    if supplier ∈ csup.suppliers then (cs, false)
    else if (csup.suppliers.length : Int) < maxSuppliers then
      (alistSet cs requester ⟨csup.cond, csup.suppliers ++ [supplier]⟩, true)
    else (cs, false)

/-- `targetConfig.partitionByActiveConnection`: split the concatenation of
the RM lists into connected (active) and unconnected (passive), dropping
empty slots. -/
def partitionByActiveConnection (activeConnections : List RMId)
    (rmIdLists : List (List RMId)) : List RMId × List RMId :=
  rmIdLists.foldl (fun acc rmIds =>
    rmIds.foldl (fun acc2 rmId =>
      if rmId = RMIdEmpty then acc2
      else if rmId ∈ activeConnections then (acc2.1 ++ [rmId], acc2.2)
      else (acc2.1, acc2.2 ++ [rmId])) acc) ([], [])

/-- The `maxSuppliers` computation of `migrateAwaitImmigrations.tick`:
`active.RMs().NonEmptyLen() - int(active.F)`, decremented once when this
node's listen address appears among the active topology's hosts (the
source tests this via `active.LocalRemoteHosts(listenPort)`, whose code is
not among the sources; modelled from the spec as host membership). The Go
arithmetic is over `int`, modelled as `Int`. -/
def maiMaxSuppliers (t : Topology) (localInHosts : Bool) : Int :=
  if localInHosts then
    (t.config.nonEmptyLen : Int) - (t.config.core.f : Int) - 1
  else (t.config.nonEmptyLen : Int) - (t.config.core.f : Int)

/-- The loop of `migrateAwaitImmigrations.tick` over the senders map:
`changed = next.Pending.SuppliedBy(self, sender, maxSuppliers) || changed`
for every sender whose in-progress counter has reached zero. -/
def suppliedByFold (pending : Conds) (self : RMId) (maxSuppliers : Int)
    (senders : SenderCounters) : Conds × Bool :=
  senders.foldl (fun acc p =>
    if p.2 = 0 then
      let r := Conds.suppliedBy acc.1 self p.1 maxSuppliers
      (r.1, r.2 || acc.2)
    else acc) (pending, false)

/-- The ways `migrateAwaitImmigrations.tick` can return. -/
inductive MAIOutcome where
  | migrationComplete
  | noSendersYet
  | noChange
  | fatalLocalHost
  | rootsError
  | awaitingRoots
  | quorumUnavailable
  | rewrite (act pas : List RMId) (pending : Conds)
deriving DecidableEq, Repr

/-- `migrateAwaitImmigrations.tick`: `t` is `task.active`, `nx` its `Next()`;
`localInHosts` is whether `active.LocalRemoteHosts(listenPort)` succeeds,
`senders?` is `task.migrations[next.Version]`, `localHostOk` whether
`firstLocalHost` succeeds, and `rootsErr`/`rootsAllFound` the two outcomes
of `verifyRoots`. -/
def migrateAwaitImmigrationsTick (t : Topology) (nx : NextConfig)
    (self : RMId) (localInHosts : Bool) (senders? : Option SenderCounters)
    (localHostOk : Bool) (rootsErr rootsAllFound : Bool)
    (activeConnections : List RMId) : MAIOutcome :=
  if (nx.pending.find self).isNone then .migrationComplete
  else
    match senders? with
    | none => .noSendersYet
    | some senders =>
      let res := suppliedByFold nx.pending self (maiMaxSuppliers t localInHosts)
        senders
      if res.2 = false then .noChange
      else if ¬ localHostOk then .fatalLocalHost
      else if rootsErr then .rootsError
      else if ¬ rootsAllFound then .awaitingRoots
      else
        let parts := partitionByActiveConnection activeConnections [nx.core.rms]
        if parts.1.length ≤ parts.2.length then .quorumUnavailable
        else .rewrite parts.1 (parts.2 ++ nx.lostRMIds) res.1

/-- `server.SubmissionInitialAttempts`. -/
def submissionInitialAttempts : Nat := 5

/-- `server.SubmissionInitialBackoff` (2 microseconds), in nanoseconds. -/
def submissionInitialBackoff : Nat := 2000

/-- `server.SubmissionMaxSubmitDelay` (2 seconds), in nanoseconds. -/
def submissionMaxSubmitDelay : Nat := 2000000000

/-- The delay update of `ClientTxnSubmitter.SubmitClientTransaction` on the
retry numbered `retryCount`: unchanged before `SubmissionInitialAttempts`,
`SubmissionInitialBackoff` exactly at it, and afterwards
`delay += rng.Intn(delay)` with a re-randomization below the cap when the
sum exceeds `SubmissionMaxSubmitDelay`. The random draws are supplied as
`j₁`, `j₂` (reduced by the modulus `rng.Intn` applies); `none` models the
`rng.Intn` panic on a non-positive bound. Durations are in nanoseconds. -/
def nextSubmitDelay (retryCount delay j₁ j₂ : Nat) : Option Nat :=
  if retryCount = submissionInitialAttempts then some submissionInitialBackoff
  else if submissionInitialAttempts < retryCount then
    if delay = 0 then none
    else if submissionMaxSubmitDelay < delay + j₁ % delay then
      some (j₂ % submissionMaxSubmitDelay)
    else some (delay + j₁ % delay)
  else some delay

/-- The delay used for the submission after `r` retries: the first
submission (`r = 0`) is issued with delay 0, and each abort that requires
resubmission advances the delay by `nextSubmitDelay`. `j` supplies the two
random draws of each retry. -/
def submitDelaySeq (j : Nat → Nat × Nat) : Nat → Option Nat
  | 0 => some 0
  | n + 1 =>
    match submitDelaySeq j n with
    | none => none
    | some d => nextSubmitDelay (n + 1) d (j (n + 1)).1 (j (n + 1)).2

/-- Association-list key removal (Go `delete`). -/
def alistErase {β : Type} (l : List (Nat × β)) (k : Nat) : List (Nat × β) :=
  match l with
  | [] => []
  | (k', v') :: rest => if k' = k then rest else (k', v') :: alistErase rest k

/-- A variable as the variable manager sees it: its UUID and whether
`isIdle()` holds. -/
structure EVar where
  uuid : Nat
  idle : Bool
deriving DecidableEq, Repr

/-- `VarManager` state: the active (in-memory) variables and the on-disk
store consulted by `find`. -/
structure VarManagerSt where
  active : List (Nat × EVar)
  store : List (Nat × EVar)
deriving DecidableEq, Repr

/-- The result of one `VarManager.ApplyToVar` call. -/
inductive ApplyResult where
  | panicked
  | notFoundErr
  | ok (vm : VarManagerSt)
deriving DecidableEq, Repr

/-- `VarManager.find` followed by the create-if-missing branch of
`ApplyToVar`: yields the variable handed to `fun` and the manager state in
which `fun` runs, or `none` when the variable is absent and
`createIfMissing` is false (the `NotFound` error path). A variable loaded
from the store, or newly created, is added to the active set; `NewVar`'s
initial activity is immaterial here since the invariant check consults the
state after `fun` ran. -/
def varLookupOrCreate (vm : VarManagerSt) (createIfMissing : Bool)
    (uuid : Nat) : Option (EVar × VarManagerSt) :=
  match alistFind vm.active uuid with
  | some v => some (v, vm)
  | none =>
    match alistFind vm.store uuid with
    | some v => some (v, ⟨alistSet vm.active uuid v, vm.store⟩)
    | none =>
      if createIfMissing then
        some (⟨uuid, false⟩, ⟨alistSet vm.active uuid ⟨uuid, false⟩, vm.store⟩)
      else none

/-- The active set after `fun` ran: `fun` is modelled as returning the
variable's new state together with whether it (via `SetInactive`) removed
the variable from the active set. -/
def activeAfterApply (vm1 : VarManagerSt) (v2 : EVar) (deactivated : Bool)
    (uuid : Nat) : List (Nat × EVar) :=
  if deactivated then alistErase vm1.active uuid
  else alistSet vm1.active uuid v2

/-- `VarManager.ApplyToVar(fun, createIfMissing, uuid)`: find or create the
variable, run `fun`, then panic when the variable is not in the active set
yet not idle ("Var is not active, yet is not idle!"). -/
def applyToVar (vm : VarManagerSt) (fn : EVar → EVar × Bool)
    (createIfMissing : Bool) (uuid : Nat) : ApplyResult :=
  match varLookupOrCreate vm createIfMissing uuid with
  | none => .notFoundErr
  | some (v, vm1) =>
    let r := fn v
    let act := activeAfterApply vm1 r.1 r.2 uuid
    if (alistFind act uuid) = none ∧ r.1.idle = false then .panicked
    else .ok ⟨act, vm1.store⟩

/-- A stored variable record: UUID, the id of the transaction that last
wrote it, and its positions (UUIDs are compared as `Nat`, with the
topology variable's all-zero UUID at `0`, the minimum of the byte order). -/
structure VarRec where
  id : Nat
  writeTxnId : Nat
  positions : List Nat
deriving DecidableEq, Repr

/-- An action's kind as the emigrator inspects it: `ACTION_READ` or any
non-read (write, readwrite, create, roll) action. -/
inductive ScanActionKind where
  | readAction
  | writeAction
deriving DecidableEq, Repr

/-- One action of a stored transaction. -/
structure ScanAction where
  varId : Nat
  kind : ScanActionKind
deriving DecidableEq, Repr

/-- A stored transaction: its id and actions. -/
structure ScanTxn where
  id : Nat
  actions : List ScanAction
deriving DecidableEq, Repr

/-- The local variable store the emigrator scans: the variable records in
cursor (key) order and the transaction records. -/
structure VarStore where
  vars : List VarRec
  txns : List (Nat × ScanTxn)
deriving DecidableEq, Repr

/-- `cursor.RTxn.Get(db.DB.Vars, id)`: the store's record for a UUID. -/
def storeFindVar (store : VarStore) (id : Nat) : Option VarRec :=
  store.vars.find? (fun v => v.id = id)

/-- `dbIterator.filterVars`: walk the write-transaction's actions, skipping
reads and absent vars, collecting the store's record for each remaining
action var; `none` models the early `return nil, nil` when an action var
sorts before the current var and shares its write transaction (the
txn-already-emitted optimization). -/
def filterVars (store : VarStore) (vUUId txnId : Nat) :
    List ScanAction → Option (List VarRec)
  | [] => some []
  | a :: rest =>
    match a.kind with
    | .readAction => filterVars store vUUId txnId rest
    | .writeAction =>
      match storeFindVar store a.varId with
      | none => filterVars store vUUId txnId rest
      | some vr =>
        if a.varId < vUUId ∧ vr.writeTxnId = txnId then none
        else (filterVars store vUUId txnId rest).map (fun l => vr :: l)

/-- `dbIterator.matchVarsAgainstCond`: the source allocates the result with
`make([]*msgs.Var, len(varCaps)>>1)`, so that many nil pointers precede the
matches; entries are `Option VarRec` accordingly. The condition's
`SatisfiedBy` evaluation (consistent-hash library) is abstracted as a
boolean function of the positions. -/
def matchVarsAgainstCond (cond : List Nat → Bool) (varCaps : List VarRec) :
    List (Option VarRec) :=
  (List.replicate (varCaps.length / 2) none) ++
    ((varCaps.filter (fun v => cond v.positions)).map some)

/-- The cursor loop of `dbIterator.iterate` over the given variable
records: the stream of vars emitted to a peer whose condition is `cond`
(batch chunking at 64 does not change membership). The topology variable is
skipped as a scanned record; missing transaction bytes abort the scan; a
`none` from `filterVars` skips an already-emitted transaction. -/
def dbIterateGo (store : VarStore) (cond : List Nat → Bool) :
    List VarRec → List (Option VarRec)
  | [] => []
  | vr :: rest =>
    if vr.id = topologyVarUUId then dbIterateGo store cond rest
    else
      match alistFind store.txns vr.writeTxnId with
      | none => []
      | some txn =>
        match filterVars store vr.id vr.writeTxnId txn.actions with
        | none => dbIterateGo store cond rest
        | some [] => dbIterateGo store cond rest
        | some varCaps =>
          matchVarsAgainstCond cond varCaps ++ dbIterateGo store cond rest

/-- `dbIterator.iterate`: scan the whole store for one peer's condition. -/
def dbIterate (store : VarStore) (cond : List Nat → Bool) :
    List (Option VarRec) :=
  dbIterateGo store cond store.vars

/-- The C7 counterexample's active topology: version 1, stable. -/
def c7Active : Topology :=
  ⟨⟨⟨"c", 1, ["h1"], 0, 5, [1], []⟩, none⟩, 0, some 9⟩

/-- The C7 counterexample's observed topology: same cluster and version 1,
but now carrying a `next` — a different configuration at an equal version. -/
def c7Observed : Topology :=
  ⟨⟨⟨"c", 1, ["h1"], 0, 5, [1], []⟩,
    some ⟨⟨"c", 2, ["h1", "h2"], 0, 5, [1, 2], []⟩, ["h2"], [2], [1], [],
      [2], []⟩⟩, 1, some 9⟩

/-- The C9 counterexample's manager state: variable 1 is in the active set
and idle. -/
def c9vm : VarManagerSt := ⟨[(1, ⟨1, true⟩)], []⟩

/-- The C10 counterexample's store: the topology variable (id 0) was last
written by transaction 11, while transaction 10 wrote both the topology
variable and the user variable 1. -/
def c10store : VarStore :=
  ⟨[⟨0, 11, [0]⟩, ⟨1, 10, [0]⟩],
   [(10, ⟨10, [⟨0, .writeAction⟩, ⟨1, .writeAction⟩]⟩),
    (11, ⟨11, [⟨0, .writeAction⟩]⟩)]⟩

/-- The C4 witness topology: three non-empty RMs, `F = 1`. -/
def c4Topology : Topology :=
  ⟨⟨⟨"c", 1, ["h1"], 1, 5, [1, 2, 3], []⟩, none⟩, 0, none⟩

/-- The C4 witness pending map: this node (RM 5) awaits its condition. -/
def c4Pending : Conds := [(5, ⟨.gen ⟨5, 3, 0, 3, [], true⟩, []⟩)]

/-- The C4 witness `next`: RMs `[1,2,3]`, lost RM 4, pending `c4Pending`. -/
def c4Next : NextConfig :=
  ⟨⟨"c", 2, ["h1"], 1, 5, [1, 2, 3], []⟩, [], [], [], [4], [], c4Pending⟩

/-- C1: one call to `targetConfig.tick()` installs exactly the sub-task of
the entry-predicate table: `ensureLocalTopology` when `active == nil`,
`joinCluster` when `active.Version == 0`, `installTargetOld` when
`next == nil` or `next.Version < config.Version`, `installTargetNew` when
`next.Version == config.Version` and `PendingInstall` is non-empty,
`migrate` when additionally `PendingInstall` is empty and `Pending` is
non-empty, `installCompletion` when both are empty, and an error in every
remaining case (namely `next.Version > config.Version`). -/
theorem targetConfigTick_dispatch (cv : Nat) :
    (targetConfigTick none cv = .ok .ensureLocalTopology)
  ∧ (∀ t : Topology, t.version = 0 →
      targetConfigTick (some t) cv = .ok .joinCluster)
  ∧ (∀ t : Topology, t.version ≠ 0 →
      (t.next = none ∨ ∃ nx, t.next = some nx ∧ nx.core.version < cv) →
      targetConfigTick (some t) cv = .ok .installTargetOld)
  ∧ (∀ (t : Topology) (nx : NextConfig), t.version ≠ 0 → t.next = some nx →
      nx.core.version = cv → nx.pendingInstall ≠ [] →
      targetConfigTick (some t) cv = .ok .installTargetNew)
  ∧ (∀ (t : Topology) (nx : NextConfig), t.version ≠ 0 → t.next = some nx →
      nx.core.version = cv → nx.pendingInstall = [] → nx.pending ≠ [] →
      targetConfigTick (some t) cv = .ok .migrate)
  ∧ (∀ (t : Topology) (nx : NextConfig), t.version ≠ 0 → t.next = some nx →
      nx.core.version = cv → nx.pendingInstall = [] → nx.pending = [] →
      targetConfigTick (some t) cv = .ok .installCompletion)
  ∧ (∀ (t : Topology) (nx : NextConfig), t.version ≠ 0 → t.next = some nx →
      cv < nx.core.version →
      exceptHasError (targetConfigTick (some t) cv) = true) := by
  refine ⟨rfl, ?_, ?_, ?_, ?_, ?_, ?_⟩
  · intro t ht
    simp [targetConfigTick, ht]
  · intro t ht hnext
    rcases hnext with h | ⟨nx, hnx, hlt⟩
    · simp [targetConfigTick, ht, h]
    · simp [targetConfigTick, ht, hnx, hlt]
  · intro t nx ht hnx hv hpi
    simp [targetConfigTick, ht, hnx, hv, hpi]
  · intro t nx ht hnx hv hpi hp
    simp [targetConfigTick, ht, hnx, hv, hpi, hp]
  · intro t nx ht hnx hv hpi hp
    simp [targetConfigTick, ht, hnx, hv, hpi, hp]
  · intro t nx ht hnx hv
    have h1 : ¬ nx.core.version < cv := by omega
    have h2 : nx.core.version ≠ cv := by omega
    simp [targetConfigTick, ht, hnx, h1, h2, exceptHasError]

/-- Witness for C1: the dispatch theorem evaluated at concrete topologies,
one per branch of the entry-predicate table. -/
theorem targetConfigTick_dispatch_witness :
    targetConfigTick none 3 = .ok .ensureLocalTopology
  ∧ targetConfigTick
      (some ⟨⟨⟨"c", 0, [], 1, 5, [1], []⟩, none⟩, 0, none⟩) 3 = .ok .joinCluster
  ∧ targetConfigTick
      (some ⟨⟨⟨"c", 2, [], 1, 5, [1], []⟩, none⟩, 0, none⟩) 3 =
      .ok .installTargetOld
  ∧ targetConfigTick
      (some ⟨⟨⟨"c", 2, [], 1, 5, [1], []⟩,
        some ⟨⟨"c", 3, [], 1, 5, [1, 2], []⟩, [], [2], [1], [], [2],
          [(2, ⟨.gen ⟨2, 2, 0, 3, [], true⟩, []⟩)]⟩⟩, 0, none⟩) 3 =
      .ok .installTargetNew
  ∧ targetConfigTick
      (some ⟨⟨⟨"c", 2, [], 1, 5, [1], []⟩,
        some ⟨⟨"c", 3, [], 1, 5, [1, 2], []⟩, [], [2], [1], [], [],
          [(2, ⟨.gen ⟨2, 2, 0, 3, [], true⟩, []⟩)]⟩⟩, 0, none⟩) 3 =
      .ok .migrate
  ∧ targetConfigTick
      (some ⟨⟨⟨"c", 2, [], 1, 5, [1], []⟩,
        some ⟨⟨"c", 3, [], 1, 5, [1, 2], []⟩, [], [2], [1], [], [], []⟩⟩,
        0, none⟩) 3 = .ok .installCompletion
  ∧ exceptHasError (targetConfigTick
      (some ⟨⟨⟨"c", 2, [], 1, 5, [1], []⟩,
        some ⟨⟨"c", 4, [], 1, 5, [1, 2], []⟩, [], [2], [1], [], [], []⟩⟩,
        0, none⟩) 3) = true := by
  obtain ⟨h1, h2, h3, h4, h5, h6, h7⟩ := targetConfigTick_dispatch 3
  refine ⟨h1, h2 _ rfl, h3 _ (by decide) (Or.inl rfl), h4 _ _ (by decide) rfl rfl (by decide),
    h5 _ _ (by decide) rfl rfl rfl (by decide), h6 _ _ (by decide) rfl rfl rfl rfl,
    h7 _ _ (by decide) rfl (by decide)⟩

theorem Conds.find_disjoinWith (cs : Conds) (r q : RMId) (c : Cond) :
    (cs.disjoinWith r c).find q =
      if r = q then
        match cs.find q with
        | none => some ⟨c, []⟩
        | some s => some ⟨.disj s.cond c, s.suppliers⟩
      else cs.find q := by
  induction cs with
  | nil =>
    by_cases h : r = q <;> simp [Conds.disjoinWith, Conds.find, h]
  | cons p rest ih =>
    obtain ⟨r₀, s₀⟩ := p
    by_cases h₀ : r₀ = r
    · subst h₀
      by_cases h₁ : r₀ = q
      · subst h₁
        simp [Conds.disjoinWith, Conds.find]
      · simp [Conds.disjoinWith, Conds.find, h₁]
    · by_cases h₁ : r₀ = q
      · subst h₁
        have hrq : ¬ r = r₀ := fun h => h₀ h.symm
        simp [Conds.disjoinWith, Conds.find, h₀, hrq]
      · simp [Conds.disjoinWith, Conds.find, h₀, h₁, ih]

theorem Conds.disjoinAll_cons (cs : Conds) (p : RMId × Cond)
    (ps : List (RMId × Cond)) :
    cs.disjoinAll (p :: ps) = (cs.disjoinWith p.1 p.2).disjoinAll ps := rfl

theorem Conds.find_disjoinAll (ps : List (RMId × Cond)) (cs : Conds) (q : RMId) :
    (cs.disjoinAll ps).find q =
      match cs.find q with
      | some s => some ⟨((ps.filter (fun p => p.1 = q)).map Prod.snd).foldl
          Cond.disj s.cond, s.suppliers⟩
      | none => (specCombineClauses
          ((ps.filter (fun p => p.1 = q)).map Prod.snd)).map
          (fun c => (⟨c, []⟩ : CondSuppliers)) := by
  induction ps generalizing cs with
  | nil =>
    cases h : cs.find q <;> simp [Conds.disjoinAll, h, specCombineClauses]
  | cons p ps ih =>
    rw [Conds.disjoinAll_cons, ih, Conds.find_disjoinWith]
    by_cases h : p.1 = q
    · rcases hf : cs.find q with _ | s <;>
        simp [h, hf, List.filter_cons, specCombineClauses]
    · rcases hf : cs.find q with _ | s <;>
        simp [h, hf, List.filter_cons]

theorem Conds.foldl_disjoinWith (l : List RMId) (g : RMId → Cond) (cs : Conds) :
    l.foldl (fun acc rm => acc.disjoinWith rm (g rm)) cs =
      cs.disjoinAll (l.map (fun rm => (rm, g rm))) := by
  simp [Conds.disjoinAll, List.foldl_map]

theorem Conds.disjoinAll_append (cs : Conds) (ps qs : List (RMId × Cond)) :
    cs.disjoinAll (ps ++ qs) = (cs.disjoinAll ps).disjoinAll qs := by
  simp [Conds.disjoinAll, List.foldl_append]

theorem calculateMigrationConditions_eq_disjoinAll (added lost survived : List RMId)
    (cfrom cto : Configuration) :
    calculateMigrationConditions added lost survived cfrom cto =
      Conds.disjoinAll []
        ((added.map (fun rm => (rm, addedClauseGen cto rm))) ++
         ((if 0 < lost.length ∧ 2 * cfrom.core.f + 1 < cfrom.nonEmptyLen ∧
              1 < survived.length
           then survived.map (fun rm => (rm, survivorIntersectGen cfrom lost rm))
           else []) ++
          (if cfrom.core.f < cto.core.f
           then survived.map (fun rm => (rm, survivorQuorumGrowthClause cfrom cto rm))
           else []))) := by
  rw [Conds.disjoinAll_append, Conds.disjoinAll_append]
  unfold calculateMigrationConditions
  simp only [Conds.foldl_disjoinWith]
  by_cases h₁ : 0 < lost.length ∧ 2 * cfrom.core.f + 1 < cfrom.nonEmptyLen ∧
      1 < survived.length <;>
    by_cases h₂ : cfrom.core.f < cto.core.f <;>
      simp [h₁, h₂, addedClauseGen, survivorIntersectGen,
        survivorQuorumGrowthClause, Conds.disjoinAll]

/-- C2: `calculateMigrationConditions` returns a map whose clauses are
exactly the spec's three rules — an includes-generator over the new quorum
for each added RM; when RMs were lost, `2F_old+1 < |rms_old|` and more than
one RM survived, an includes-generator with `lenAdjustIntersect = lost` for
each survivor; when `F_new > F_old`, a conjunction of inclusion in the new
quorum and exclusion from the old quorum for each survivor — with all
clauses for the same RM combined by disjunction and no other clause. -/
theorem calculateMigrationConditions_clauses (added lost survived : List RMId)
    (cfrom cto : Configuration) (rm : RMId) :
    (calculateMigrationConditions added lost survived cfrom cto).find rm =
      (specCombineClauses
        (specMigrationClauses added lost survived cfrom cto rm)).map
        (fun c => (⟨c, []⟩ : CondSuppliers)) := by
  rw [calculateMigrationConditions_eq_disjoinAll, Conds.find_disjoinAll]
  have hfil : ∀ (l : List RMId) (g : RMId → Cond),
      (((l.map (fun r => (r, g r))).filter (fun p => p.1 = rm)).map Prod.snd) =
        (l.filter (fun r => r = rm)).map g := by
    intro l g
    induction l with
    | nil => simp
    | cons x xs ihl =>
      by_cases hx : x = rm <;> simp [List.filter_cons, hx, ihl]
  show (specCombineClauses _).map _ = _
  congr 1
  unfold specMigrationClauses
  by_cases h₁ : 0 < lost.length ∧ 2 * cfrom.core.f + 1 < cfrom.nonEmptyLen ∧
      1 < survived.length <;>
    by_cases h₂ : cfrom.core.f < cto.core.f <;>
      simp [h₁, h₂, List.filter_append, hfil]

theorem i32_eq_self (n : Int) (h₁ : -(2 ^ 31) ≤ n) (h₂ : n < 2 ^ 31) :
    i32 n = n := by
  unfold i32
  omega

theorem countEv_append_singleton (es : List MigEvent) (e e' : MigEvent) :
    countEv (es ++ [e]) e' = countEv es e' + (if e = e' then 1 else 0) := by
  by_cases h : e = e' <;> simp [countEv, List.filter_append, h]

theorem take_append_le {α : Type} (l₁ l₂ : List α) (n : Nat) (h : n ≤ l₁.length) :
    (l₁ ++ l₂).take n = l₁.take n := by
  rw [List.take_append_eq_append_take]
  have h0 : n - l₁.length = 0 := by omega
  simp [h0]

theorem migRun_single_state (av v : Nat) (s : RMId) (hv : av < v)
    (es : List MigEvent)
    (hAll : ∀ e ∈ es, e = .batch v s ∨ e = .batchDone v s ∨ e = .complete v s)
    (hPrefix : ∀ n, n ≤ es.length →
      countEv (es.take n) (.batchDone v s) ≤ countEv (es.take n) (.batch v s))
    (hTerm : countEv es (.complete v s) ≤ 1)
    (hLen : es.length < 2 ^ 30) :
    migRun av es = if es = [] then ([] : Migrations)
      else [(v, [(s, (1 : Int) + (countEv es (.batch v s) : Int)
        - (countEv es (.batchDone v s) : Int)
        - (countEv es (.complete v s) : Int))])] := by
  induction es using List.reverseRecOn with
  | nil => simp [migRun]
  | append_singleton es e ih =>
    have hAll' : ∀ x ∈ es, x = MigEvent.batch v s ∨ x = MigEvent.batchDone v s ∨
        x = MigEvent.complete v s := fun x hx => hAll x (by simp [hx])
    have hPrefix' : ∀ n, n ≤ es.length →
        countEv (es.take n) (.batchDone v s) ≤ countEv (es.take n) (.batch v s) := by
      intro n hn
      have := hPrefix n (by simp; omega)
      rwa [take_append_le es [e] n hn] at this
    have hTerm' : countEv es (.complete v s) ≤ 1 := by
      have := countEv_append_singleton es e (.complete v s)
      omega
    have hLen' : es.length < 2 ^ 30 := by
      have : (es ++ [e]).length = es.length + 1 := by simp
      omega
    have hC : countEv es (.batchDone v s) ≤ countEv es (.batch v s) := by
      have := hPrefix' es.length le_rfl
      simpa using this
    have hBlen : countEv es (.batch v s) ≤ es.length := by
      simpa [countEv] using List.length_filter_le (fun x => decide (x = MigEvent.batch v s)) es
    have hCfull : countEv (es ++ [e]) (.batchDone v s) ≤
        countEv (es ++ [e]) (.batch v s) := by
      have := hPrefix (es ++ [e]).length le_rfl
      rwa [List.take_length] at this
    have hstep : migRun av (es ++ [e]) = migStep av (migRun av es) e := by
      simp [migRun, List.foldl_append]
    rw [hstep, ih hAll' hPrefix' hTerm' hLen']
    rcases hAll e (by simp) with he | he | he <;> subst he
    · -- batch arrival
      by_cases hes : es = []
      · subst hes
        simp [migStep, migrationReceived, hv, alistFind, alistSet, countEv]
      · have hwrap : i32 ((1 : Int) + (countEv es (.batch v s) : Int)
            - (countEv es (.batchDone v s) : Int)
            - (countEv es (.complete v s) : Int) + 1) =
            (1 : Int) + (countEv es (.batch v s) : Int)
            - (countEv es (.batchDone v s) : Int)
            - (countEv es (.complete v s) : Int) + 1 := by
          apply i32_eq_self <;> push_cast <;> omega
        simp [migStep, migrationReceived, hv, alistFind, alistSet, hes, hwrap,
          countEv_append_singleton]
        omega
    · -- batch completion callback
      have hB1 : 1 ≤ countEv es (.batch v s) := by
        have h1 := countEv_append_singleton es (.batchDone v s) (.batchDone v s)
        have h2 := countEv_append_singleton es (.batchDone v s) (.batch v s)
        simp at h1 h2
        omega
      have hes : es ≠ [] := by
        intro h
        subst h
        simp [countEv] at hB1
      have hCstrict : countEv es (.batchDone v s) + 1 ≤ countEv es (.batch v s) := by
        have h1 := countEv_append_singleton es (.batchDone v s) (.batchDone v s)
        have h2 := countEv_append_singleton es (.batchDone v s) (.batch v s)
        simp at h1 h2
        omega
      have hwrap : i32 ((1 : Int) + (countEv es (.batch v s) : Int)
          - (countEv es (.batchDone v s) : Int)
          - (countEv es (.complete v s) : Int) - 1) =
          (1 : Int) + (countEv es (.batch v s) : Int)
          - (countEv es (.batchDone v s) : Int)
          - (countEv es (.complete v s) : Int) - 1 := by
        apply i32_eq_self <;> push_cast <;> omega
      simp [migStep, migrationBatchComplete, alistFind, alistSet, hes, hwrap,
        countEv_append_singleton]
      omega
    · -- terminal migration-complete
      have hT0 : countEv es (.complete v s) = 0 := by
        have h1 := countEv_append_singleton es (.complete v s) (.complete v s)
        simp at h1
        omega
      by_cases hes : es = []
      · subst hes
        simp [migStep, migrationCompleteReceived, hv, alistFind, alistSet, countEv]
      · have hwrap : i32 ((1 : Int) + (countEv es (.batch v s) : Int)
            - (countEv es (.batchDone v s) : Int) - 1) =
            (1 : Int) + (countEv es (.batch v s) : Int)
            - (countEv es (.batchDone v s) : Int) - 1 := by
          apply i32_eq_self <;> push_cast <;> omega
        simp [migStep, migrationCompleteReceived, alistFind, alistSet, hes,
          countEv_append_singleton, hT0]
        rw [hwrap]

/-- C3: for every version strictly greater than the active topology's
version and every sender, the ledger counter for `(version, sender)` is zero
exactly when every received batch's dispatcher completion has fired and the
terminal migration-complete from that sender has been received, regardless
of the order of arrivals (each batch receipt adds one, the first receipt
initialising the counter to 2; each batch completion and the terminal each
subtract one); and batch receipts for versions not greater than the active
version leave the ledger unchanged. -/
theorem migrationLedger_zero_iff (av v : Nat) (s : RMId) (hv : av < v)
    (es : List MigEvent) (hNe : es ≠ [])
    (hAll : ∀ e ∈ es, e = .batch v s ∨ e = .batchDone v s ∨ e = .complete v s)
    (hPrefix : ∀ n, n ≤ es.length →
      countEv (es.take n) (.batchDone v s) ≤ countEv (es.take n) (.batch v s))
    (hTerm : countEv es (.complete v s) ≤ 1)
    (hLen : es.length < 2 ^ 30) :
    (migLedger (migRun av es) v s = some 0 ↔
      (countEv es (.batchDone v s) = countEv es (.batch v s) ∧
        countEv es (.complete v s) = 1))
  ∧ ∀ (m : Migrations) (v' : Nat) (s' : RMId), v' ≤ av →
      migrationReceived av m v' s' = m := by
  constructor
  · rw [migRun_single_state av v s hv es hAll hPrefix hTerm hLen]
    have hC : countEv es (.batchDone v s) ≤ countEv es (.batch v s) := by
      have := hPrefix es.length le_rfl
      simpa using this
    have hled : ∀ val : Int, migLedger [(v, [(s, val)])] v s = some val := by
      intro val
      simp [migLedger, alistFind]
    rw [if_neg hNe, hled, Option.some.injEq]
    omega
  · intro m v' s' hle
    have h : ¬ av < v' := by omega
    simp [migrationReceived, h]

/-- Witness for C3: a trace in which the terminal message arrives before the
batch it accounts for, showing the zero-crossing is order-independent. -/
theorem migrationLedger_zero_iff_witness :
    (migLedger (migRun 1 [.complete 2 7, .batch 2 7, .batchDone 2 7]) 2 7 =
        some 0 ↔
      (countEv [.complete 2 7, .batch 2 7, .batchDone 2 7] (.batchDone 2 7) =
          countEv [.complete 2 7, .batch 2 7, .batchDone 2 7] (.batch 2 7) ∧
        countEv [.complete 2 7, .batch 2 7, .batchDone 2 7] (.complete 2 7) = 1))
  ∧ migrationReceived 1 [(2, [(7, 2)])] 1 7 = [(2, [(7, 2)])] :=
  ⟨(migrationLedger_zero_iff 1 2 7 (by decide)
      [.complete 2 7, .batch 2 7, .batchDone 2 7] (by decide) (by decide)
      (by decide) (by decide) (by norm_num)).1,
   (migrationLedger_zero_iff 1 2 7 (by decide)
      [.complete 2 7, .batch 2 7, .batchDone 2 7] (by decide) (by decide)
      (by decide) (by decide) (by norm_num)).2 [(2, [(7, 2)])] 1 7 (by decide)⟩

/-- C6: whenever `setActive` reaches its acceptance point (the observed
topology passed the guard switch) and the observed `rmsRemoved` contains
this node's own RM identifier, it returns the shutdown error without
accepting the topology or proceeding to any task work; for every such
topology whose `rmsRemoved` does not contain the local identifier, no such
error is returned and the topology is accepted. -/
theorem setActive_removed_spec (active : Option Topology) (localRMId : RMId)
    (observed : Topology)
    (hGuard : active = none ∨ ∃ act, active = some act ∧
      act.clusterId = observed.clusterId ∧ ¬ observed.version < act.version ∧
      act.config ≠ observed.config) :
    (localRMId ∈ observed.rmsRemoved →
      setActive active localRMId observed = .removedError)
  ∧ (localRMId ∉ observed.rmsRemoved →
      setActive active localRMId observed = .accepted observed) := by
  rcases hGuard with h | ⟨act, rfl, hc, hv, hcfg⟩
  · subst h
    constructor <;> intro hm <;> simp [setActive, hm]
  · constructor <;> intro hm <;> simp [setActive, hc, hv, hcfg, hm]

/-- Witness for C6: a removed node gets the shutdown error; an untouched
node's observation is accepted. -/
theorem setActive_removed_spec_witness :
    setActive (some ⟨⟨⟨"c", 1, [], 0, 5, [1], []⟩, none⟩, 0, none⟩) 1
      ⟨⟨⟨"c", 2, [], 0, 5, [2], [1]⟩, none⟩, 1, none⟩ = .removedError
  ∧ setActive (some ⟨⟨⟨"c", 1, [], 0, 5, [1], []⟩, none⟩, 0, none⟩) 1
      ⟨⟨⟨"c", 2, [], 0, 5, [1], []⟩, none⟩, 1, none⟩ =
      .accepted ⟨⟨⟨"c", 2, [], 0, 5, [1], []⟩, none⟩, 1, none⟩ :=
  ⟨(setActive_removed_spec
      (some ⟨⟨⟨"c", 1, [], 0, 5, [1], []⟩, none⟩, 0, none⟩) 1
      ⟨⟨⟨"c", 2, [], 0, 5, [2], [1]⟩, none⟩, 1, none⟩
      (Or.inr ⟨_, rfl, rfl, by decide, by decide⟩)).1 (by decide),
   (setActive_removed_spec
      (some ⟨⟨⟨"c", 1, [], 0, 5, [1], []⟩, none⟩, 0, none⟩) 1
      ⟨⟨⟨"c", 2, [], 0, 5, [1], []⟩, none⟩, 1, none⟩
      (Or.inr ⟨_, rfl, rfl, by decide, by decide⟩)).2 (by decide)⟩

/-- C7 counterexample: an observed topology with version equal to the
active version (hence ≤) and the same clusterId but a different
configuration is not ignored — `setActive` accepts it and replaces the
active topology, contradicting the claim that all observations with
version ≤ active are logged and ignored. -/
theorem setActive_equalVersion_not_ignored :
    c7Observed.version ≤ c7Active.version
  ∧ c7Observed.clusterId = c7Active.clusterId
  ∧ c7Observed ≠ c7Active
  ∧ setActive (some c7Active) 1 c7Observed = .accepted c7Observed := by
  decide

/-- C7 amended: with matching clusterId, an observed topology with version
strictly below the active version is logged and ignored, and one whose
configuration equals the active configuration is silently ignored; but an
observed topology with version equal to the active version and a different
configuration is not ignored — it is accepted (or yields the removal error
when this node is in its `rmsRemoved`). -/
theorem setActive_ignore_conditions (act observed : Topology)
    (localRMId : RMId) (hc : act.clusterId = observed.clusterId) :
    (observed.version < act.version →
      setActive (some act) localRMId observed = .ignoredOlderVersion)
  ∧ (act.config = observed.config →
      setActive (some act) localRMId observed = .ignoredEqualConfig)
  ∧ (observed.version = act.version → act.config ≠ observed.config →
      (localRMId ∈ observed.rmsRemoved →
        setActive (some act) localRMId observed = .removedError)
      ∧ (localRMId ∉ observed.rmsRemoved →
        setActive (some act) localRMId observed = .accepted observed)) := by
  refine ⟨?_, ?_, ?_⟩
  · intro hv
    simp [setActive, hc, hv]
  · intro hcfg
    have hveq : act.version = observed.version := by
      simp [Topology.version, hcfg]
    have hv : ¬ observed.version < act.version := by omega
    simp [setActive, hc, hv, hcfg]
  · intro hveq hcfg
    have hv : ¬ observed.version < act.version := by omega
    constructor <;> intro hm <;> simp [setActive, hc, hv, hcfg, hm]

/-- Witness for the amended C7: each of the three branches evaluated on a
concrete active/observed pair. -/
theorem setActive_ignore_conditions_witness :
    setActive (some c7Active) 1 ⟨⟨⟨"c", 0, [], 0, 5, [], []⟩, none⟩, 0, none⟩ =
      .ignoredOlderVersion
  ∧ setActive (some c7Active) 1 ⟨c7Active.config, 5, some 9⟩ =
      .ignoredEqualConfig
  ∧ setActive (some c7Active) 1 c7Observed = .accepted c7Observed :=
  ⟨(setActive_ignore_conditions c7Active
      ⟨⟨⟨"c", 0, [], 0, 5, [], []⟩, none⟩, 0, none⟩ 1 rfl).1 (by decide),
   (setActive_ignore_conditions c7Active
      ⟨c7Active.config, 5, some 9⟩ 1 rfl).2.1 rfl,
   ((setActive_ignore_conditions c7Active c7Observed 1 rfl).2.2 rfl
      (by decide)).2 (by decide)⟩

/-- C5: the discovery transaction reads the topology variable at version
zero with only the local RM active; a commit outcome is reported as an
internal error (never a topology); a resubmit abort retries; a rerun abort
with exactly one update carrying exactly one write action on the topology
variable returns the deserialized topology with the update's transaction id
as the new DBVersion; and every other rerun shape (update count, action
count, wrong variable, non-write action) yields an error and no topology. -/
theorem getTopologyFromLocalDatabase_spec :
    (∀ self : RMId, createTopologyTransaction none none [self] [] =
      some ⟨[(topologyVarUUId, .readAct 0)], [self], [], 1, 0⟩)
  ∧ (∀ rest,
      (processTopologyReadResults (.commit :: rest)).isErrored = true)
  ∧ (∀ rest, processTopologyReadResults (.abortResubmit :: rest) =
      processTopologyReadResults rest)
  ∧ (∀ (txnId : Nat) (value : Configuration) (refs : List Nat) rest,
      processTopologyReadResults
        (.abortRerun [⟨txnId, [⟨topologyVarUUId, .write value refs⟩]⟩] :: rest) =
      .topo ⟨value, txnId, if refs.length = 1 then refs.head? else none⟩)
  ∧ (∀ updates rest, updates.length ≠ 1 →
      (processTopologyReadResults (.abortRerun updates :: rest)).isErrored = true)
  ∧ (∀ (txnId : Nat) (actions : List UpdateAction) rest, actions.length ≠ 1 →
      (processTopologyReadResults
        (.abortRerun [⟨txnId, actions⟩] :: rest)).isErrored = true)
  ∧ (∀ (txnId varId : Nat) (k : UpdateActionKind) rest,
      varId ≠ topologyVarUUId →
      (processTopologyReadResults
        (.abortRerun [⟨txnId, [⟨varId, k⟩]⟩] :: rest)).isErrored = true)
  ∧ (∀ (txnId varId : Nat) rest,
      (processTopologyReadResults
        (.abortRerun [⟨txnId, [⟨varId, .nonWrite⟩]⟩] :: rest)).isErrored = true) := by
  refine ⟨fun self => rfl, fun rest => rfl, fun rest => rfl, ?_, ?_, ?_, ?_, ?_⟩
  · intro txnId value refs rest
    simp [processTopologyReadResults, topologyFromCap]
  · intro updates rest h
    rcases updates with _ | ⟨u, _ | ⟨u2, us⟩⟩
    · rfl
    · simp at h
    · rfl
  · intro txnId actions rest h
    rcases actions with _ | ⟨a, _ | ⟨a2, as⟩⟩
    · rfl
    · simp at h
    · rfl
  · intro txnId varId k rest h
    simp [processTopologyReadResults, h, TopoReadResult.isErrored]
  · intro txnId varId rest
    by_cases h : varId = topologyVarUUId
    · subst h
      simp [processTopologyReadResults, TopoReadResult.isErrored]
    · simp [processTopologyReadResults, h, TopoReadResult.isErrored]

/-- Witness for C5: each branch of the discovery handling evaluated at a
concrete outcome list. -/
theorem getTopologyFromLocalDatabase_spec_witness :
    createTopologyTransaction none none [4] [] =
      some ⟨[(topologyVarUUId, .readAct 0)], [4], [], 1, 0⟩
  ∧ (processTopologyReadResults [.commit]).isErrored = true
  ∧ processTopologyReadResults [.abortResubmit, .commit] =
      processTopologyReadResults [.commit]
  ∧ processTopologyReadResults
      [.abortRerun [⟨21, [⟨topologyVarUUId,
        .write ⟨⟨"c", 1, [], 0, 5, [1], []⟩, none⟩ [9]⟩]⟩]] =
      .topo ⟨⟨⟨"c", 1, [], 0, 5, [1], []⟩, none⟩, 21,
        if ([9] : List Nat).length = 1 then ([9] : List Nat).head? else none⟩
  ∧ (processTopologyReadResults [.abortRerun []]).isErrored = true
  ∧ (processTopologyReadResults [.abortRerun [⟨21, []⟩]]).isErrored = true
  ∧ (processTopologyReadResults
      [.abortRerun [⟨21, [⟨3, .nonWrite⟩]⟩]]).isErrored = true
  ∧ (processTopologyReadResults
      [.abortRerun [⟨21, [⟨topologyVarUUId, .nonWrite⟩]⟩]]).isErrored = true := by
  obtain ⟨h1, h2, h3, h4, h5, h6, h7, h8⟩ := getTopologyFromLocalDatabase_spec
  exact ⟨h1 4, h2 [], h3 [.commit], h4 21 ⟨⟨"c", 1, [], 0, 5, [1], []⟩, none⟩ [9] [],
    h5 [] [] (by decide), h6 21 [] [] (by decide), h7 21 3 .nonWrite [] (by decide),
    h8 21 topologyVarUUId []⟩

/-- C4: in `migrateAwaitImmigrations.tick`, `maxSuppliers` is the number of
non-empty RMs of the active topology minus `F`, decremented by exactly one
when the local listen address appears among the active topology's hosts;
only senders whose counter has reached zero mark `Pending` as
supplied-by-that-sender, each marking subject to the `maxSuppliers` cap;
and a rewrite of the topology, with `LostRMIds` appended to the passive
set, is attempted only when at least one `Pending` entry actually changed. -/
theorem migrateAwaitImmigrations_spec (t : Topology) (nx : NextConfig)
    (self : RMId) (localInHosts : Bool) (senders : SenderCounters)
    (localHostOk rootsErr rootsAllFound : Bool) (conns : List RMId)
    (hPend : (nx.pending.find self).isNone = false) :
    (maiMaxSuppliers t localInHosts =
      (t.config.nonEmptyLen : Int) - (t.config.core.f : Int) -
        (if localInHosts then 1 else 0))
  ∧ (suppliedByFold nx.pending self (maiMaxSuppliers t localInHosts) senders =
      suppliedByFold nx.pending self (maiMaxSuppliers t localInHosts)
        (senders.filter (fun p => p.2 = 0)))
  ∧ ((suppliedByFold nx.pending self (maiMaxSuppliers t localInHosts)
        senders).2 = false →
      migrateAwaitImmigrationsTick t nx self localInHosts (some senders)
        localHostOk rootsErr rootsAllFound conns = .noChange)
  ∧ (∀ act pas pend,
      migrateAwaitImmigrationsTick t nx self localInHosts (some senders)
        localHostOk rootsErr rootsAllFound conns = .rewrite act pas pend →
      (suppliedByFold nx.pending self (maiMaxSuppliers t localInHosts)
        senders).2 = true
      ∧ pend = (suppliedByFold nx.pending self (maiMaxSuppliers t localInHosts)
          senders).1
      ∧ act = (partitionByActiveConnection conns [nx.core.rms]).1
      ∧ pas = (partitionByActiveConnection conns [nx.core.rms]).2 ++
          nx.lostRMIds)
  ∧ (∀ (cs : Conds) (req sup : RMId) (mx : Int) (s : CondSuppliers),
      cs.find req = some s → ¬ ((s.suppliers.length : Int) < mx) →
      cs.suppliedBy req sup mx = (cs, false)) := by
  refine ⟨?_, ?_, ?_, ?_, ?_⟩
  · by_cases h : localInHosts <;> simp [maiMaxSuppliers, h]
  · unfold suppliedByFold
    generalize (nx.pending, false) = acc
    induction senders generalizing acc with
    | nil => rfl
    | cons x xs ih =>
      by_cases h : x.2 = 0 <;> simp [List.filter_cons, h, ih]
  · intro h
    simp [migrateAwaitImmigrationsTick, hPend, h]
  · intro act pas pend h
    simp only [migrateAwaitImmigrationsTick, hPend, Bool.false_eq_true,
      if_false] at h
    by_cases h1 : (suppliedByFold nx.pending self
        (maiMaxSuppliers t localInHosts) senders).2 = false
    · simp [h1] at h
    · have h1' : (suppliedByFold nx.pending self
          (maiMaxSuppliers t localInHosts) senders).2 = true := by
        revert h1
        cases (suppliedByFold nx.pending self
          (maiMaxSuppliers t localInHosts) senders).2 <;> simp
      by_cases h2 : localHostOk
      · by_cases h3 : rootsErr
        · simp [h1, h2, h3] at h
        · by_cases h4 : rootsAllFound
          · by_cases h5 : (partitionByActiveConnection conns [nx.core.rms]).1.length ≤
                (partitionByActiveConnection conns [nx.core.rms]).2.length
            · simp [h1, h2, h3, h4, h5] at h
            · simp [h1, h2, h3, h4, h5] at h
              exact ⟨h1', h.2.2.symm, h.1.symm, h.2.1.symm⟩
          · simp [h1, h2, h3, h4] at h
      · simp [h1, h2] at h
  · intro cs req sup mx s hf hlt
    unfold Conds.suppliedBy
    rw [hf]
    by_cases hm : sup ∈ s.suppliers
    · simp [hm]
    · simp [hm, hlt]

/-- Witness for C4: a tick that rewrites with the lost RMs appended to the
passives, a tick with no zero counter reporting no change, the
zero-counter filtering, the `maxSuppliers` value, and a capped entry
refusing a further supplier. -/
theorem migrateAwaitImmigrations_spec_witness :
    maiMaxSuppliers c4Topology true = 1
  ∧ suppliedByFold c4Pending 5 (maiMaxSuppliers c4Topology true)
      [(1, 0), (2, 3)] =
      suppliedByFold c4Pending 5 (maiMaxSuppliers c4Topology true)
        ([(1, 0), (2, 3)].filter (fun p => p.2 = 0))
  ∧ migrateAwaitImmigrationsTick c4Topology c4Next 5 true (some [(2, 3)])
      true false true [1, 2] = .noChange
  ∧ ((suppliedByFold c4Pending 5 (maiMaxSuppliers c4Topology true)
        [(1, 0), (2, 3)]).2 = true
      ∧ [(5, (⟨.gen ⟨5, 3, 0, 3, [], true⟩, [1]⟩ : CondSuppliers))] =
          (suppliedByFold c4Pending 5 (maiMaxSuppliers c4Topology true)
            [(1, 0), (2, 3)]).1
      ∧ [1, 2] = (partitionByActiveConnection [1, 2] [c4Next.core.rms]).1
      ∧ [3, 4] = (partitionByActiveConnection [1, 2] [c4Next.core.rms]).2 ++
          c4Next.lostRMIds)
  ∧ Conds.suppliedBy [(5, ⟨.gen ⟨5, 3, 0, 3, [], true⟩, [1]⟩)] 5 9 1 =
      ([(5, ⟨.gen ⟨5, 3, 0, 3, [], true⟩, [1]⟩)], false) := by
  have h := migrateAwaitImmigrations_spec c4Topology c4Next 5 true
    [(1, 0), (2, 3)] true false true [1, 2] (by decide)
  have h3 := migrateAwaitImmigrations_spec c4Topology c4Next 5 true
    [(2, 3)] true false true [1, 2] (by decide)
  exact ⟨h.1.trans (by decide), h.2.1, h3.2.2.1 (by decide),
    h.2.2.2.1 [1, 2] [3, 4] [(5, ⟨.gen ⟨5, 3, 0, 3, [], true⟩, [1]⟩)]
      (by decide),
    h.2.2.2.2 [(5, ⟨.gen ⟨5, 3, 0, 3, [], true⟩, [1]⟩)] 5 9 1
      ⟨.gen ⟨5, 3, 0, 3, [], true⟩, [1]⟩ (by decide) (by decide)⟩

/-- C8: for a client transaction that keeps aborting, the resubmission
delay is zero for the first `SubmissionInitialAttempts` (5) submissions,
equals `SubmissionInitialBackoff` (2 microseconds) on the retry numbered 5,
and on every subsequent retry doubles with full jitter — the next delay
lies in `[d, 2d)` — unless the doubled value exceeds
`SubmissionMaxSubmitDelay` (2 seconds), in which case it is re-drawn below
the cap; the delay never exceeds the cap. -/
theorem clientTxnBackoff_spec (j : Nat → Nat × Nat) :
    (∀ r, r < submissionInitialAttempts → submitDelaySeq j r = some 0)
  ∧ submitDelaySeq j submissionInitialAttempts = some submissionInitialBackoff
  ∧ (∀ r d d2, submissionInitialAttempts ≤ r → submitDelaySeq j r = some d →
      0 < d → submitDelaySeq j (r + 1) = some d2 →
      ((d ≤ d2 ∧ d2 < 2 * d ∧ d2 ≤ submissionMaxSubmitDelay) ∨
        (submissionMaxSubmitDelay < d + (j (r + 1)).1 % d ∧
          d2 < submissionMaxSubmitDelay)))
  ∧ (∀ r d, submitDelaySeq j r = some d → d ≤ submissionMaxSubmitDelay) := by
  have hzero : ∀ r, r < submissionInitialAttempts → submitDelaySeq j r = some 0 := by
    intro r
    induction r with
    | zero => intro _; rfl
    | succ n ih =>
      intro hr
      simp only [submissionInitialAttempts] at hr ih ⊢
      have hn : n < 5 := by omega
      have h1 : ¬ (n + 1 = 5) := by omega
      have h2 : ¬ (5 < n + 1) := by omega
      simp [submitDelaySeq, ih hn, nextSubmitDelay, submissionInitialAttempts,
        h1, h2]
  have hfive : submitDelaySeq j submissionInitialAttempts =
      some submissionInitialBackoff := by
    have h4 : submitDelaySeq j 4 = some 0 := hzero 4 (by simp [submissionInitialAttempts])
    show submitDelaySeq j (4 + 1) = some submissionInitialBackoff
    rw [submitDelaySeq, h4]
    simp [nextSubmitDelay, submissionInitialAttempts]
  refine ⟨hzero, hfive, ?_, ?_⟩
  · intro r d d2 hr hd hpos hnext
    have hnext : nextSubmitDelay (r + 1) d (j (r + 1)).1 (j (r + 1)).2 =
        some d2 := by
      rw [submitDelaySeq, hd] at hnext
      exact hnext
    simp only [submissionInitialAttempts] at hr
    have h1 : ¬ (r + 1 = submissionInitialAttempts) := by
      simp only [submissionInitialAttempts]; omega
    have h2 : submissionInitialAttempts < r + 1 := by
      simp only [submissionInitialAttempts]; omega
    have hne : ¬ (d = 0) := by omega
    unfold nextSubmitDelay at hnext
    rw [if_neg h1, if_pos h2, if_neg hne] at hnext
    by_cases hcap : submissionMaxSubmitDelay < d + (j (r + 1)).1 % d
    · rw [if_pos hcap] at hnext
      right
      have hmax : 0 < submissionMaxSubmitDelay := by
        simp [submissionMaxSubmitDelay]
      have hd2 : d2 = (j (r + 1)).2 % submissionMaxSubmitDelay :=
        ((Option.some.injEq _ _).mp hnext).symm
      exact ⟨hcap, hd2 ▸ Nat.mod_lt _ hmax⟩
    · rw [if_neg hcap] at hnext
      left
      have hmod : (j (r + 1)).1 % d < d := Nat.mod_lt _ hpos
      have hd2 : d2 = d + (j (r + 1)).1 % d := by
        exact (Option.some.injEq _ _).mp hnext.symm
      refine ⟨by omega, by omega, by omega⟩
  · intro r
    induction r with
    | zero =>
      intro d hd
      have : d = 0 := by
        simpa [submitDelaySeq] using hd.symm
      simp [this, submissionMaxSubmitDelay]
    | succ n ih =>
      intro d hd
      cases hn : submitDelaySeq j n with
      | none =>
        rw [submitDelaySeq, hn] at hd
        exact absurd hd (by simp)
      | some dn =>
        have hd : nextSubmitDelay (n + 1) dn (j (n + 1)).1 (j (n + 1)).2 =
            some d := by
          rw [submitDelaySeq, hn] at hd
          exact hd
        have hdn := ih dn hn
        unfold nextSubmitDelay at hd
        by_cases h1 : n + 1 = submissionInitialAttempts
        · rw [if_pos h1] at hd
          have : d = submissionInitialBackoff := by
            exact (Option.some.injEq _ _).mp hd.symm
          simp [this, submissionInitialBackoff, submissionMaxSubmitDelay]
        · rw [if_neg h1] at hd
          by_cases h2 : submissionInitialAttempts < n + 1
          · rw [if_pos h2] at hd
            by_cases h3 : dn = 0
            · rw [if_pos h3] at hd
              exact absurd hd (by simp)
            · rw [if_neg h3] at hd
              by_cases h4 : submissionMaxSubmitDelay < dn + (j (n + 1)).1 % dn
              · rw [if_pos h4] at hd
                have hd' : d = (j (n + 1)).2 % submissionMaxSubmitDelay := by
                  exact (Option.some.injEq _ _).mp hd.symm
                have hmax : 0 < submissionMaxSubmitDelay := by
                  simp [submissionMaxSubmitDelay]
                have := Nat.mod_lt (j (n + 1)).2 hmax
                omega
              · rw [if_neg h4] at hd
                have hd' : d = dn + (j (n + 1)).1 % dn := by
                  exact (Option.some.injEq _ _).mp hd.symm
                omega
          · rw [if_neg h2] at hd
            have hd' : d = dn := by
              exact (Option.some.injEq _ _).mp hd.symm
            omega

/-- Witness for C8: the schedule evaluated with fixed random draws —
submission 3 still free, retry 5 at the initial backoff, retry 6 within
the doubling window, and the cap holding. -/
theorem clientTxnBackoff_spec_witness :
    submitDelaySeq (fun _ => (0, 1)) 2 = some 0
  ∧ submitDelaySeq (fun _ => (0, 1)) submissionInitialAttempts =
      some submissionInitialBackoff
  ∧ ((2000 ≤ 2000 ∧ 2000 < 2 * 2000 ∧ 2000 ≤ submissionMaxSubmitDelay) ∨
      (submissionMaxSubmitDelay <
          2000 + ((fun _ => ((0 : Nat), (1 : Nat))) 6).1 % 2000 ∧
        2000 < submissionMaxSubmitDelay))
  ∧ 2000 ≤ submissionMaxSubmitDelay := by
  obtain ⟨h1, h2, h3, h4⟩ := clientTxnBackoff_spec (fun _ => (0, 1))
  exact ⟨h1 2 (by decide), h2,
    h3 5 2000 2000 (by decide) (by decide) (by decide) (by decide),
    h4 6 2000 (by decide)⟩

/-- C9 counterexample: a variable that is in the active set and idle after
the supplied function ran does not make `ApplyToVar` panic, and a variable
that is neither active nor idle (not the claimed combination) does: the
source's invariant is "not active yet not idle", the inverse of the
claim's "active while also idle". -/
theorem applyToVar_activeIdle_counterexample :
    applyToVar c9vm (fun v => (v, false)) false 1 = .ok c9vm
  ∧ alistFind c9vm.active 1 = some ⟨1, true⟩
  ∧ (⟨1, true⟩ : EVar).idle = true
  ∧ applyToVar ⟨[], [(2, ⟨2, false⟩)]⟩ (fun v => (v, true)) false 2 =
      .panicked := by
  decide

/-- C9 amended: `ApplyToVar` panics precisely when, after the supplied
function has run, the variable is absent from the manager's active set
while not idle ("Var is not active, yet is not idle!") — the inverse of
the claimed combination; in particular a variable that stays in the active
set, or is idle, never triggers the panic. -/
theorem applyToVar_panics_iff (vm : VarManagerSt) (fn : EVar → EVar × Bool)
    (createIfMissing : Bool) (uuid : Nat) :
    applyToVar vm fn createIfMissing uuid = .panicked ↔
      ∃ v vm1, varLookupOrCreate vm createIfMissing uuid = some (v, vm1) ∧
        alistFind (activeAfterApply vm1 (fn v).1 (fn v).2 uuid) uuid = none ∧
        (fn v).1.idle = false := by
  unfold applyToVar
  cases h : varLookupOrCreate vm createIfMissing uuid with
  | none => simp
  | some pr =>
    obtain ⟨v, vm1⟩ := pr
    simp only [Option.some.injEq, Prod.mk.injEq]
    by_cases hc : alistFind (activeAfterApply vm1 (fn v).1 (fn v).2 uuid) uuid
        = none ∧ (fn v).1.idle = false
    · simp [hc]
      exact ⟨v, vm1, ⟨rfl, rfl⟩, hc.1, hc.2⟩
    · simp [hc]
      intro h1
      by_cases hidle : (fn v).1.idle = false
      · exact absurd ⟨h1, hidle⟩ hc
      · simpa using hidle

theorem alistFind_mem {β : Type} (l : List (Nat × β)) (k : Nat) (v : β)
    (h : alistFind l k = some v) : (k, v) ∈ l := by
  induction l with
  | nil => simp [alistFind] at h
  | cons p rest ih =>
    obtain ⟨k', v'⟩ := p
    by_cases hk : k' = k
    · subst hk
      simp [alistFind] at h
      subst h
      simp
    · simp [alistFind, hk] at h
      simp [ih h]

theorem storeFindVar_id (store : VarStore) (id : Nat) (vr : VarRec)
    (h : storeFindVar store id = some vr) : vr.id = id := by
  unfold storeFindVar at h
  have := List.find?_some h
  simpa using this

theorem filterVars_mem (store : VarStore) (vUUId txnId : Nat)
    (actions : List ScanAction) (varCaps : List VarRec)
    (h : filterVars store vUUId txnId actions = some varCaps) :
    ∀ vr ∈ varCaps, ∃ a ∈ actions, a.kind = .writeAction ∧
      storeFindVar store a.varId = some vr := by
  induction actions generalizing varCaps with
  | nil =>
    simp [filterVars] at h
    subst h
    simp
  | cons a rest ih =>
    cases hk : a.kind with
    | readAction =>
      rw [filterVars, hk] at h
      intro vr hvr
      obtain ⟨a', ha', hw, hf⟩ := ih varCaps h vr hvr
      exact ⟨a', by simp [ha'], hw, hf⟩
    | writeAction =>
      rw [filterVars, hk] at h
      cases hfind : storeFindVar store a.varId with
      | none =>
        rw [hfind] at h
        intro vr hvr
        obtain ⟨a', ha', hw, hf⟩ := ih varCaps h vr hvr
        exact ⟨a', by simp [ha'], hw, hf⟩
      | some vr0 =>
        rw [hfind] at h
        have h2 : (if a.varId < vUUId ∧ vr0.writeTxnId = txnId then
            (none : Option (List VarRec))
          else Option.map (fun l => vr0 :: l)
            (filterVars store vUUId txnId rest)) = some varCaps := h
        by_cases hcond : a.varId < vUUId ∧ vr0.writeTxnId = txnId
        · rw [if_pos hcond] at h2
          simp at h2
        · rw [if_neg hcond] at h2
          obtain ⟨l, hl, hcons⟩ := Option.map_eq_some'.mp h2
          subst hcons
          intro vr hvr
          rcases List.mem_cons.mp hvr with hv0 | hvl
          · subst hv0
            exact ⟨a, by simp, hk, hfind⟩
          · obtain ⟨a', ha', hw, hf⟩ := ih l hl vr hvl
            exact ⟨a', by simp [ha'], hw, hf⟩

theorem dbIterateGo_no_topologyVar (store : VarStore)
    (cond : List Nat → Bool) (l : List VarRec)
    (hsep : ∀ v ∈ l, v.id ≠ topologyVarUUId →
      ∀ txn, alistFind store.txns v.writeTxnId = some txn →
      ∀ a ∈ txn.actions, a.kind = .writeAction → a.varId ≠ topologyVarUUId) :
    ∀ vr : VarRec, some vr ∈ dbIterateGo store cond l →
      vr.id ≠ topologyVarUUId := by
  induction l with
  | nil => simp [dbIterateGo]
  | cons v0 rest ih =>
    have hsep' : ∀ v ∈ rest, v.id ≠ topologyVarUUId →
        ∀ txn, alistFind store.txns v.writeTxnId = some txn →
        ∀ a ∈ txn.actions, a.kind = .writeAction →
          a.varId ≠ topologyVarUUId :=
      fun v hv => hsep v (by simp [hv])
    intro vr hvr
    rw [dbIterateGo] at hvr
    by_cases h0 : v0.id = topologyVarUUId
    · rw [if_pos h0] at hvr
      exact ih hsep' vr hvr
    · rw [if_neg h0] at hvr
      cases htxn : alistFind store.txns v0.writeTxnId with
      | none =>
        rw [htxn] at hvr
        simp at hvr
      | some txn =>
        rw [htxn] at hvr
        have hvr2 : some vr ∈
            (match filterVars store v0.id v0.writeTxnId txn.actions with
            | none => dbIterateGo store cond rest
            | some [] => dbIterateGo store cond rest
            | some varCaps =>
              matchVarsAgainstCond cond varCaps ++
                dbIterateGo store cond rest) := hvr
        cases hfv : filterVars store v0.id v0.writeTxnId txn.actions with
        | none =>
          rw [hfv] at hvr2
          exact ih hsep' vr hvr2
        | some varCaps =>
          rw [hfv] at hvr2
          cases varCaps with
          | nil => exact ih hsep' vr hvr2
          | cons vc vcs =>
            have hvr3 : some vr ∈
                matchVarsAgainstCond cond (vc :: vcs) ++
                  dbIterateGo store cond rest := hvr2
            rcases List.mem_append.mp hvr3 with hmem | hmem
            · unfold matchVarsAgainstCond at hmem
              rcases List.mem_append.mp hmem with hrep | hmap
              · have := List.eq_of_mem_replicate hrep
                simp at this
              · obtain ⟨x, hx, hsx⟩ := List.mem_map.mp hmap
                have hxeq : x = vr := by
                  simpa using hsx
                subst hxeq
                have hxin : x ∈ vc :: vcs := List.mem_of_mem_filter hx
                obtain ⟨a, ha, hw, hf⟩ :=
                  filterVars_mem store v0.id v0.writeTxnId txn.actions
                    (vc :: vcs) hfv x hxin
                have hid := storeFindVar_id store a.varId x hf
                have hne := hsep v0 (by simp) h0 txn htxn a ha hw
                rw [hid]
                exact hne
            · exact ih hsep' vr hmem

/-- C10 counterexample: scanning user variable 1, whose write transaction
10 also carried a non-read action on the topology variable (whose stored
record has since been rewritten by transaction 11), emits the topology
variable's record into the migration stream: the claim that no batch ever
contains the topology variable fails. -/
theorem dbIterate_topologyVar_counterexample :
    some (⟨0, 11, [0]⟩ : VarRec) ∈ dbIterate c10store (fun _ => true)
  ∧ (⟨0, 11, [0]⟩ : VarRec).id = topologyVarUUId := by
  decide

/-- C10 amended: the emigrator's scan always skips the topology variable as
the scanned record; and provided no write transaction of a stored
non-topology variable carries a non-read action on the topology variable —
true of the repository's topology transactions, which have exactly one
action, on the topology variable itself — no var emitted to any peer is
the topology variable. (A batch can otherwise pick it up through
`filterVars`, which collects the store records of all the write
transaction's action vars without re-checking for the topology UUID.) -/
theorem dbIterate_skips_topologyVar (store : VarStore)
    (cond : List Nat → Bool)
    (hsep : ∀ v ∈ store.vars, v.id ≠ topologyVarUUId →
      ∀ txn, alistFind store.txns v.writeTxnId = some txn →
      ∀ a ∈ txn.actions, a.kind = .writeAction →
        a.varId ≠ topologyVarUUId) :
    (∀ (w : Nat) (ps : List Nat) (rest : List VarRec),
      dbIterateGo store cond (⟨topologyVarUUId, w, ps⟩ :: rest) =
        dbIterateGo store cond rest)
  ∧ (∀ vr : VarRec, some vr ∈ dbIterate store cond →
      vr.id ≠ topologyVarUUId) := by
  constructor
  · intro w ps rest
    rw [dbIterateGo]
    simp
  · exact dbIterateGo_no_topologyVar store cond store.vars hsep

/-- Witness for the amended C10: a store whose transactions keep the
topology variable to itself — nothing emitted is the topology variable. -/
theorem dbIterate_skips_topologyVar_witness :
    dbIterateGo
      (⟨[⟨0, 11, [0]⟩, ⟨1, 10, [0]⟩],
        [(10, ⟨10, [⟨1, .writeAction⟩]⟩), (11, ⟨11, [⟨0, .writeAction⟩]⟩)]⟩)
      (fun _ => true) (⟨topologyVarUUId, 7, []⟩ :: []) =
      dbIterateGo
        (⟨[⟨0, 11, [0]⟩, ⟨1, 10, [0]⟩],
          [(10, ⟨10, [⟨1, .writeAction⟩]⟩), (11, ⟨11, [⟨0, .writeAction⟩]⟩)]⟩)
        (fun _ => true) []
  ∧ (⟨1, 10, [0]⟩ : VarRec).id ≠ topologyVarUUId := by
  have h := dbIterate_skips_topologyVar
    (⟨[⟨0, 11, [0]⟩, ⟨1, 10, [0]⟩],
      [(10, ⟨10, [⟨1, .writeAction⟩]⟩), (11, ⟨11, [⟨0, .writeAction⟩]⟩)]⟩)
    (fun _ => true) (by decide)
  exact ⟨h.1 7 [] [], h.2 ⟨1, 10, [0]⟩ (by decide)⟩
